import Mathlib

/-!
Verification of the streaming-transport server (`src/main.js`) and the
stream client (`public/chat.js`) of the llm-stream-example repository,
via a shallow embedding of both request handlers and of the client's
message handler.
-/

namespace LlmStream

/-! ## JSON string encoding (JSON.stringify on a string value)

The server frames each fragment as `data: ` + JSON.stringify(content) + two
newlines (src/main.js line 40). We embed JSON.stringify restricted to string
arguments: quote, backslash and control characters are escaped; all other
characters pass through unchanged. -/

/-- Hexadecimal digit character for a value below 16, lowercase as produced
by JavaScript's JSON.stringify. -/
def hexDigit (n : Nat) : Char :=
  if n < 10 then Char.ofNat (48 + n) else Char.ofNat (87 + n)

/-- Four-digit lowercase hexadecimal rendering used in \uXXXX escapes. -/
def hex4 (n : Nat) : String :=
  ⟨[hexDigit (n / 4096 % 16), hexDigit (n / 256 % 16),
    hexDigit (n / 16 % 16), hexDigit (n % 16)]⟩

/-- Escaping of one character inside a JSON string literal, as JSON.stringify
performs it: quote and backslash get a backslash, the named control escapes
are used for \b \t \n \f \r, any other control character below U+0020 becomes
a \uXXXX escape, and every other character is emitted verbatim. -/
def jsonEscapeChar (c : Char) : String :=
  if c = '"' then "\\\""
  else if c = '\\' then "\\\\"
  else if c = '\n' then "\\n"
  else if c = '\r' then "\\r"
  else if c = '\t' then "\\t"
  else if c = Char.ofNat 8 then "\\b"
  else if c = Char.ofNat 12 then "\\f"
  else if c.toNat < 32 then "\\u" ++ hex4 c.toNat
  else ⟨[c]⟩

/-- JSON.stringify of a string value: a double-quoted literal whose body is
the character-wise escaping of the input. -/
def jsonStringify (s : String) : String :=
  "\"" ++ String.join (s.data.map jsonEscapeChar) ++ "\""

/-! ## Server model (src/main.js)

The `/stream` handler drives an async producer. A producer element (a
LangChain chunk) carries a `content` field that may be absent/undefined;
we model it as an `Option String`. The handler's interaction with the
response object `res` is recorded as a trace of events: `setHeader`,
`write`, and `resEnd` (for `res.end()`). -/

/-- One element yielded by the producer stream; `content := none` models an
absent/undefined content field. -/
structure Chunk where
  content : Option String
deriving DecidableEq

/-- Outcome of one execution of the producer as observed by the `/stream`
handler: the stream is acquired and yields `chunks` then completes normally
(`ok`); the stream is acquired, yields `chunks`, and then iteration raises
(`failAfter`); or `llm.stream(messages)` itself raises before any chunk and
before the header-setting lines run (`failAtStart`). -/
inductive ProducerOutcome where
  | ok (chunks : List Chunk)
  | failAfter (chunks : List Chunk)
  | failAtStart
deriving DecidableEq

/-- One observable action the handler performs on the Express response. -/
inductive ResEvent where
  | setHeader (name value : String)
  | write (s : String)
  | resEnd
deriving DecidableEq

/-- Diagnostic write performed by the catch block of the `/stream` handler
(src/main.js line 46), exactly as in the source: no trailing blank line. -/
def errorNotice : String := "data: an error occurred while streaming response."

/-- The three SSE response headers set at src/main.js lines 27-29, in
source order. -/
def sseHeaders : List ResEvent :=
  [ResEvent.setHeader "Content-Type" "text/event-stream",
   ResEvent.setHeader "Cache-Control" "no-cache",
   ResEvent.setHeader "Connection" "keep-alive"]

/-- The `for await` drain loop of the `/stream` handler (src/main.js lines
31-41): for each chunk, skip it when its content is falsy (absent or the
empty string), otherwise write one frame `data: ` + JSON.stringify(content)
+ two newlines. -/
def drainLoop : List Chunk → List ResEvent
  | [] => []
  | ch :: rest =>
    match ch.content with
    | none => drainLoop rest
    | some c =>
      if c = "" then drainLoop rest
      else ResEvent.write ("data: " ++ jsonStringify c ++ "\n\n") :: drainLoop rest

/-- Trace of the `/stream` handler (src/main.js lines 12-49) as a function of
the producer outcome. On successful acquisition the headers are set, the
chunks are drained, and the response is ended; if iteration raises, the catch
block writes the diagnostic and ends the response; if acquisition itself
raises, the catch block runs before any header was set. -/
def streamHandler : ProducerOutcome → List ResEvent
  | ProducerOutcome.ok chunks =>
      sseHeaders ++ drainLoop chunks ++ [ResEvent.resEnd]
  | ProducerOutcome.failAfter chunks =>
      sseHeaders ++ drainLoop chunks ++ [ResEvent.write errorNotice, ResEvent.resEnd]
  | ProducerOutcome.failAtStart =>
      [ResEvent.write errorNotice, ResEvent.resEnd]

/-- Body writes of a response trace, in order (setHeader and resEnd events
carry no body bytes). -/
def writesOf : List ResEvent → List String
  | [] => []
  | ResEvent.write s :: rest => s :: writesOf rest
  | _ :: rest => writesOf rest

/-- Prefix of a trace strictly before the first body write. -/
def preBody (tr : List ResEvent) : List ResEvent :=
  tr.takeWhile fun e => match e with
    | ResEvent.write _ => false
    | _ => true

/-- Proposition that all three SSE framing headers are set before the first
byte of the response body is written. -/
def framingHeadersSet (tr : List ResEvent) : Prop :=
  ∀ h ∈ sseHeaders, h ∈ preBody tr

instance (tr : List ResEvent) : Decidable (framingHeadersSet tr) := by
  unfold framingHeadersSet; infer_instance

/-- Draining a list of chunks that all carry non-empty content writes exactly
one frame per chunk, in order. -/
theorem drainLoop_map_some (frags : List String) (h : ∀ f ∈ frags, f ≠ "") :
    drainLoop (frags.map fun f => Chunk.mk (some f)) =
      frags.map fun f => ResEvent.write ("data: " ++ jsonStringify f ++ "\n\n") := by
  induction frags with
  | nil => rfl
  | cons f rest ih =>
    have hf : f ≠ "" := h f (List.mem_cons_self f rest)
    simp only [List.map_cons, drainLoop, if_neg hf]
    exact congrArg _ (ih fun g hg => h g (List.mem_cons_of_mem f hg))

/-! ## Client model (public/chat.js)

The stream client accumulates raw `event.data` strings, records the elapsed
time at the first received message, and re-renders `cleanText` of the buffer
after every message. -/

/-- Whitespace predicate of JavaScript's String.prototype.trim: the
WhiteSpace and LineTerminator code points. -/
def jsWhitespace (c : Char) : Bool :=
  c.toNat = 9 ∨ c.toNat = 10 ∨ c.toNat = 11 ∨ c.toNat = 12 ∨ c.toNat = 13 ∨
  c.toNat = 32 ∨ c.toNat = 160 ∨ c.toNat = 5760 ∨
  (8192 ≤ c.toNat ∧ c.toNat ≤ 8202) ∨ c.toNat = 8232 ∨ c.toNat = 8233 ∨
  c.toNat = 8239 ∨ c.toNat = 8287 ∨ c.toNat = 12288 ∨ c.toNat = 65279

/-- Character-list form of String.prototype.trim: drop whitespace from the
front, then from the back. -/
def trimList (l : List Char) : List Char :=
  ((l.dropWhile jsWhitespace).reverse.dropWhile jsWhitespace).reverse

/-- String.prototype.trim: drop whitespace from both ends. -/
def jsTrim (s : String) : String :=
  ⟨trimList s.data⟩

/-- Replacement of the anchored pattern matching one leading quote with the
empty string (public/chat.js line 95). -/
def stripLeadingQuote (s : String) : String :=
  match s.data with
  | '"' :: rest => ⟨rest⟩
  | _ => s

/-- Global replacement of two adjacent quotes with the empty string, scanning
left to right without overlap (public/chat.js line 96). -/
def removeDoubledQuotesAux : List Char → List Char
  | [] => []
  | [c] => [c]
  | c :: d :: rest =>
    if c = '"' ∧ d = '"' then removeDoubledQuotesAux rest
    else c :: removeDoubledQuotesAux (d :: rest)

/-- String form of the doubled-quote removal. -/
def removeDoubledQuotes (s : String) : String :=
  ⟨removeDoubledQuotesAux s.data⟩

/-- Replacement of the anchored pattern matching one trailing quote with the
empty string (public/chat.js line 97). -/
def stripTrailingQuote (s : String) : String :=
  match s.data.reverse with
  | '"' :: rest => ⟨rest.reverse⟩
  | _ => s

/-- Display cleanup of the streamed text (public/chat.js lines 93-99):
remove a leading quote, remove doubled quotes globally, remove a trailing
quote, then trim surrounding whitespace, in that order. -/
def cleanText (text : String) : String :=
  jsTrim (stripTrailingQuote (removeDoubledQuotes (stripLeadingQuote text)))

/-- Elapsed-time value surfaced by displayElapsedTime (public/chat.js lines
110-113): Math.floor(endTime - startTime), exact on integer millisecond
ticks. -/
def displayElapsedTime (startTime endTime : Nat) : Nat :=
  endTime - startTime

/-- One message event delivered to the EventSource handler: its data string
and its arrival time in milliseconds. -/
structure MessageEvent where
  data : String
  time : Nat
deriving DecidableEq

/-- Client-side state touched by the onmessage handler: the accumulated
raw buffer, the recorded elapsed-time metric (none while not yet recorded),
the rendered container text, and the loading flag. -/
structure ClientState where
  accumulatedText : String
  elapsedTime : Option Nat
  containerHTML : String
  loading : Bool
deriving DecidableEq

/-- Client state right after a stream-form submit (public/chat.js lines
36-54): loading shown, buffer empty, no elapsed time recorded. -/
def initClientState : ClientState :=
  { accumulatedText := "", elapsedTime := none, containerHTML := "", loading := true }

/-- The eventSource.onmessage handler (public/chat.js lines 57-68): when the
buffer is still empty, record the elapsed time for this first message and
hide the loading indicator; then append the raw event data to the buffer and
re-render the cleaned buffer. -/
def onmessage (timeStart : Nat) (st : ClientState) (ev : MessageEvent) : ClientState :=
  let st :=
    if st.accumulatedText = "" then
      { st with elapsedTime := some (displayElapsedTime timeStart ev.time),
                loading := false }
    else st
  let acc := st.accumulatedText ++ ev.data
  { st with accumulatedText := acc, containerHTML := cleanText acc }

/-- Client state after processing a list of message events in order,
starting from a fresh session begun at timeStart. -/
def clientRun (timeStart : Nat) (events : List MessageEvent) : ClientState :=
  events.foldl (onmessage timeStart) initClientState

/-! ## JSON string decoding (specification side)

The spec's invariant for the Accumulated Text Buffer speaks of the
JSON-decoded concatenation of the frame payloads. The client source performs
no such decoding, so the decoder below is the specification-side definition:
a parser for a single JSON string literal, inverse to `jsonStringify`.
Surrogate pairs in \uXXXX escapes are combined; a lone surrogate (not
representable as a Lean `Char`) makes the parse fail. -/

/-- Value of one hexadecimal digit character. -/
def hexDigitVal (c : Char) : Option Nat :=
  if 48 ≤ c.toNat ∧ c.toNat ≤ 57 then some (c.toNat - 48)
  else if 97 ≤ c.toNat ∧ c.toNat ≤ 102 then some (c.toNat - 87)
  else if 65 ≤ c.toNat ∧ c.toNat ≤ 70 then some (c.toNat - 55)
  else none

/-- Value of a four-hex-digit escape sequence. -/
def hex4Val (a b c d : Char) : Option Nat := do
  let x ← hexDigitVal a
  let y ← hexDigitVal b
  let z ← hexDigitVal c
  let w ← hexDigitVal d
  pure (((x * 16 + y) * 16 + z) * 16 + w)

/-- Body of a JSON string literal after the opening quote: plain characters
and escape sequences up to a closing quote that must end the input. -/
def jsonStringBody : List Char → Option (List Char)
  | [] => none
  | '"' :: rest => if rest = [] then some [] else none
  | '\\' :: 'u' :: a :: b :: c :: d :: rest =>
    match hex4Val a b c d with
    | none => none
    | some n =>
      if n < 55296 ∨ 57343 < n then
        (jsonStringBody rest).map fun t => Char.ofNat n :: t
      else if n < 56320 then
        match rest with
        | '\\' :: 'u' :: a2 :: b2 :: c2 :: d2 :: rest2 =>
          match hex4Val a2 b2 c2 d2 with
          | none => none
          | some m =>
            if 56320 ≤ m ∧ m ≤ 57343 then
              (jsonStringBody rest2).map fun t =>
                Char.ofNat (65536 + (n - 55296) * 1024 + (m - 56320)) :: t
            else none
        | _ => none
      else none
  | '\\' :: e :: rest =>
    if e = '"' then (jsonStringBody rest).map fun t => '"' :: t
    else if e = '\\' then (jsonStringBody rest).map fun t => '\\' :: t
    else if e = '/' then (jsonStringBody rest).map fun t => '/' :: t
    else if e = 'n' then (jsonStringBody rest).map fun t => '\n' :: t
    else if e = 'r' then (jsonStringBody rest).map fun t => '\r' :: t
    else if e = 't' then (jsonStringBody rest).map fun t => '\t' :: t
    else if e = 'b' then (jsonStringBody rest).map fun t => Char.ofNat 8 :: t
    else if e = 'f' then (jsonStringBody rest).map fun t => Char.ofNat 12 :: t
    else none
  | c :: rest =>
    if c.toNat < 32 then none
    else (jsonStringBody rest).map fun t => c :: t

/-- Parse of a complete JSON string literal, the decoding the spec applies
to each frame payload. -/
def jsonParseString (s : String) : Option String :=
  match s.data with
  | '"' :: rest => (jsonStringBody rest).map fun l => ⟨l⟩
  | _ => none

/-- Specification-side definition, from the spec's words: the JSON-decoded
concatenation of a list of frame payloads (none when some payload is not a
JSON string literal). -/
def specDecodedConcat (payloads : List String) : Option String :=
  (payloads.mapM jsonParseString).map String.join

/-! ## Reference (single-shot) endpoint model (src/main.js lines 51-70) -/

/-- Response object returned by llm.invoke; `content := none` models the
absence of a content field (the `"content" in response` check failing). -/
structure InvokeResponse where
  content : Option String
deriving DecidableEq

/-- Outcome of llm.invoke as observed by the `/normal` handler: a response
object, or a raised error. -/
inductive InvokeOutcome where
  | ok (response : InvokeResponse)
  | error
deriving DecidableEq

/-- HTTP response produced via res.send: Express defaults the status code
to 200 when none is set explicitly, which the `/normal` handler never
does. -/
structure HttpResponse where
  status : Nat
  body : String
deriving DecidableEq

/-- The `/normal` handler (src/main.js lines 51-70): on success, send the
response content, or the fixed fallback text when the content field is
absent; on error, send the fixed plain-text diagnostic. Neither path sets a
status code, so both are sent with the Express default 200. -/
def normalHandler : InvokeOutcome → HttpResponse
  | InvokeOutcome.ok response =>
      { status := 200,
        body := match response.content with
                | some c => c
                | none => "No answer was generated." }
  | InvokeOutcome.error =>
      { status := 200, body := "An error occurred while generating the summary." }

/-- C1: a producer that yields N non-empty fragments and then completes
normally makes the stream endpoint write exactly N frames, each exactly
`data: ` + JSON.stringify(fragment) + two newlines, in yield order, and then
close the connection via res.end — including the N = 0 case. -/
theorem stream_ok_writes_frames_then_closes
    (frags : List String) (h : ∀ f ∈ frags, f ≠ "") :
    streamHandler (ProducerOutcome.ok (frags.map fun f => Chunk.mk (some f))) =
      sseHeaders ++
        (frags.map fun f => ResEvent.write ("data: " ++ jsonStringify f ++ "\n\n")) ++
        [ResEvent.resEnd] := by
  simp only [streamHandler, drainLoop_map_some frags h]

/-- Witness for C1 at the concrete fragment list ["Hi"]. -/
theorem stream_ok_writes_frames_then_closes_witness :
    (∀ f ∈ ["Hi"], f ≠ "") ∧
    streamHandler (ProducerOutcome.ok (["Hi"].map fun f => Chunk.mk (some f))) =
      sseHeaders ++
        (["Hi"].map fun f => ResEvent.write ("data: " ++ jsonStringify f ++ "\n\n")) ++
        [ResEvent.resEnd] :=
  ⟨by decide, stream_ok_writes_frames_then_closes ["Hi"] (by decide)⟩

/-- C2: a producer that fails after yielding k non-empty fragments makes the
stream endpoint write the k content frames, then exactly one diagnostic write
`data: ` + plain-text notice with no trailing blank line, then close the
connection; the same diagnostic-then-close happens when the stream fails
before the first fragment, at acquisition time. -/
theorem stream_fail_writes_diagnostic_then_closes
    (frags : List String) (h : ∀ f ∈ frags, f ≠ "") :
    streamHandler (ProducerOutcome.failAfter (frags.map fun f => Chunk.mk (some f))) =
      sseHeaders ++
        (frags.map fun f => ResEvent.write ("data: " ++ jsonStringify f ++ "\n\n")) ++
        [ResEvent.write errorNotice, ResEvent.resEnd] ∧
    streamHandler ProducerOutcome.failAtStart =
      [ResEvent.write errorNotice, ResEvent.resEnd] ∧
    errorNotice = "data: an error occurred while streaming response." := by
  refine ⟨?_, rfl, rfl⟩
  simp only [streamHandler, drainLoop_map_some frags h]

/-- Witness for C2 at the concrete fragment list ["He"]. -/
theorem stream_fail_writes_diagnostic_then_closes_witness :
    (∀ f ∈ ["He"], f ≠ "") ∧
    (streamHandler (ProducerOutcome.failAfter (["He"].map fun f => Chunk.mk (some f))) =
      sseHeaders ++
        (["He"].map fun f => ResEvent.write ("data: " ++ jsonStringify f ++ "\n\n")) ++
        [ResEvent.write errorNotice, ResEvent.resEnd] ∧
    streamHandler ProducerOutcome.failAtStart =
      [ResEvent.write errorNotice, ResEvent.resEnd] ∧
    errorNotice = "data: an error occurred while streaming response.") :=
  ⟨by decide, stream_fail_writes_diagnostic_then_closes ["He"] (by decide)⟩

/-- C4 counterexample: when acquisition of the producer stream itself fails
(`llm.stream(messages)` raises), the catch block writes the diagnostic body
without any of the three SSE framing headers having been set, refuting the
claim that on every execution the headers are set before the first body
byte. -/
theorem headers_missing_when_acquisition_fails :
    ¬ framingHeadersSet (streamHandler ProducerOutcome.failAtStart) := by
  decide

/-- C4 amended: on every execution in which the producer stream is
successfully acquired — every normal completion and every failure during
iteration — the three SSE framing headers are set before the first byte of
the response body is written. -/
theorem headers_before_body_when_stream_acquired (chunks : List Chunk) :
    framingHeadersSet (streamHandler (ProducerOutcome.ok chunks)) ∧
    framingHeadersSet (streamHandler (ProducerOutcome.failAfter chunks)) := by
  constructor <;>
  · intro h hh
    fin_cases hh <;>
      simp [streamHandler, sseHeaders, preBody, List.takeWhile_cons]

/-- Body writes distribute over trace concatenation. -/
theorem writesOf_append (a b : List ResEvent) :
    writesOf (a ++ b) = writesOf a ++ writesOf b := by
  induction a with
  | nil => rfl
  | cons e rest ih => cases e <;> simp [writesOf, ih]

/-- The drain loop writes exactly one frame per chunk whose content is
present and non-empty, in order. -/
theorem writesOf_drainLoop (chunks : List Chunk) :
    writesOf (drainLoop chunks) =
      ((chunks.filterMap Chunk.content).filter fun c => c != "").map
        (fun c => "data: " ++ jsonStringify c ++ "\n\n") := by
  induction chunks with
  | nil => rfl
  | cons ch rest ih =>
    cases hc : ch.content with
    | none => simp [drainLoop, hc, List.filterMap_cons, ih]
    | some c =>
      by_cases hce : c = "" <;>
        simp [drainLoop, hc, hce, List.filterMap_cons, List.filter_cons, writesOf, ih]

/-- C5: chunks whose content is absent or empty are skipped and never
emitted as frames, the remaining contents are framed in order; in particular
the producer sequence ["a", "", "b", undefined-content, "c"] results in
exactly the three frames for "a", "b", "c". -/
theorem empty_or_undefined_chunks_skipped :
    (∀ chunks : List Chunk,
      writesOf (streamHandler (ProducerOutcome.ok chunks)) =
        ((chunks.filterMap Chunk.content).filter fun c => c != "").map
          (fun c => "data: " ++ jsonStringify c ++ "\n\n")) ∧
    writesOf (streamHandler (ProducerOutcome.ok
        [Chunk.mk (some "a"), Chunk.mk (some ""), Chunk.mk (some "b"),
         Chunk.mk none, Chunk.mk (some "c")])) =
      ["data: \"a\"\n\n", "data: \"b\"\n\n", "data: \"c\"\n\n"] := by
  constructor
  · intro chunks
    simp [streamHandler, writesOf_append, writesOf_drainLoop, writesOf, sseHeaders]
  · decide

/-- Head of a dropWhile result never satisfies the predicate. -/
theorem head?_dropWhile_eq_false {α : Type} (p : α → Bool) :
    ∀ (l : List α) (c : α), (l.dropWhile p).head? = some c → p c = false := by
  intro l
  induction l with
  | nil => intro c h; simp [List.dropWhile] at h
  | cons a t ih =>
    intro c h
    by_cases hp : p a
    · rw [List.dropWhile_cons_of_pos hp] at h
      exact ih c h
    · rw [List.dropWhile_cons_of_neg hp] at h
      simp only [List.head?_cons, Option.some.injEq] at h
      rw [← h]
      exact Bool.eq_false_iff.mpr hp

/-- A list whose head fails the predicate is unchanged by dropWhile. -/
theorem dropWhile_eq_self_of_head {α : Type} (p : α → Bool) (l : List α)
    (h : ∀ c, l.head? = some c → p c = false) : l.dropWhile p = l := by
  cases l with
  | nil => rfl
  | cons a t =>
    have ha : p a = false := h a rfl
    rw [List.dropWhile_cons_of_neg (by simp [ha])]

/-- dropWhile is idempotent. -/
theorem dropWhile_idem {α : Type} (p : α → Bool) (l : List α) :
    (l.dropWhile p).dropWhile p = l.dropWhile p :=
  dropWhile_eq_self_of_head p _ (head?_dropWhile_eq_false p l)

/-- dropWhile keeps the last element of the list when its result is
non-empty. -/
theorem getLast?_dropWhile {α : Type} (p : α → Bool) (l : List α)
    (h : l.dropWhile p ≠ []) : (l.dropWhile p).getLast? = l.getLast? := by
  induction l with
  | nil => simp [List.dropWhile] at h
  | cons a t ih =>
    by_cases hp : p a
    · rw [List.dropWhile_cons_of_pos hp] at h ⊢
      rw [ih h]
      have ht : t ≠ [] := by
        intro he
        rw [he] at h
        simp [List.dropWhile] at h
      cases t with
      | nil => exact absurd rfl ht
      | cons b u => rw [List.getLast?_cons_cons]
    · rw [List.dropWhile_cons_of_neg hp]

/-- Character-list trim is idempotent. -/
theorem trimList_idem (l : List Char) : trimList (trimList l) = trimList l := by
  unfold trimList
  set p := jsWhitespace with hp
  set l1 := l.dropWhile p with hl1
  set l2 := l1.reverse.dropWhile p with hl2
  have stepA : l2.reverse.dropWhile p = l2.reverse := by
    apply dropWhile_eq_self_of_head
    intro c hc
    rw [List.head?_reverse] at hc
    have hne : l2 ≠ [] := by
      intro he
      rw [he] at hc
      simp at hc
    have h1 : l2.getLast? = l1.reverse.getLast? := by
      rw [hl2]; exact getLast?_dropWhile p l1.reverse (hl2 ▸ hne)
    have h2 : l1.reverse.getLast? = l1.head? := by
      rw [← List.head?_reverse, List.reverse_reverse]
    rw [h1, h2] at hc
    exact head?_dropWhile_eq_false p l c (hl1 ▸ hc)
  rw [stepA, List.reverse_reverse, hl2, dropWhile_idem]

/-- jsTrim is idempotent. -/
theorem jsTrim_idem (s : String) : jsTrim (jsTrim s) = jsTrim s :=
  congrArg (fun l => (⟨l⟩ : String)) (trimList_idem s.data)

/-- String.join distributes over cons. -/
theorem join_cons (s : String) (l : List String) :
    String.join (s :: l) = s ++ String.join l := by
  have key : ∀ (m : List String) (a : String),
      m.foldl (fun r t => r ++ t) a = a ++ m.foldl (fun r t => r ++ t) "" := by
    intro m
    induction m with
    | nil => intro a; rw [List.foldl_nil, List.foldl_nil, String.append_empty]
    | cons x xs ih =>
      intro a
      rw [List.foldl_cons, List.foldl_cons, ih (a ++ x), ih ("" ++ x),
        String.empty_append, String.append_assoc]
  show (s :: l).foldl (fun r t => r ++ t) "" = s ++ l.foldl (fun r t => r ++ t) ""
  rw [List.foldl_cons, String.empty_append, key]

/-- Appending to a non-empty string yields a non-empty string. -/
theorem append_ne_empty_left (s t : String) (h : s ≠ "") : s ++ t ≠ "" := by
  intro he
  apply h
  have hd : s.data ++ t.data = [] := by
    rw [← String.data_append, he]
  apply String.ext
  exact (List.append_eq_nil.mp hd).1

/-- A string containing no quote character is unchanged by
stripLeadingQuote. -/
theorem stripLeadingQuote_eq_self (s : String) (h : '"' ∉ s.data) :
    stripLeadingQuote s = s := by
  unfold stripLeadingQuote
  split
  · rename_i rest heq
    exact absurd (heq ▸ List.mem_cons_self _ rest) h
  · rfl

/-- A character list containing no quote is unchanged by the doubled-quote
removal. -/
theorem removeDoubledQuotesAux_eq_self : ∀ (l : List Char), '"' ∉ l →
    removeDoubledQuotesAux l = l
  | [], _ => rfl
  | [_], _ => rfl
  | c :: d :: rest, h => by
    have hc : c ≠ '"' := fun he => h (he ▸ List.mem_cons_self c (d :: rest))
    rw [removeDoubledQuotesAux, if_neg (fun hcd => hc hcd.1)]
    have htail : '"' ∉ d :: rest := fun hm => h (List.mem_cons_of_mem c hm)
    rw [removeDoubledQuotesAux_eq_self (d :: rest) htail]

/-- A string containing no quote character is unchanged by
removeDoubledQuotes. -/
theorem removeDoubledQuotes_eq_self (s : String) (h : '"' ∉ s.data) :
    removeDoubledQuotes s = s := by
  unfold removeDoubledQuotes
  rw [removeDoubledQuotesAux_eq_self s.data h]

/-- A string containing no quote character is unchanged by
stripTrailingQuote. -/
theorem stripTrailingQuote_eq_self (s : String) (h : '"' ∉ s.data) :
    stripTrailingQuote s = s := by
  unfold stripTrailingQuote
  split
  · rename_i rest heq
    have : '"' ∈ s.data.reverse := heq ▸ List.mem_cons_self _ rest
    exact absurd (List.mem_reverse.mp this) h
  · rfl

/-- C6: the display cleanup applied to the raw joined buffer with a leading
quote, doubled-quote joins and a trailing quote removes all of them and
trims whitespace, yielding the plain text. -/
theorem cleanText_strips_quotes_example :
    cleanText "\"Hel\"\"lo, wor\"\"ld\"" = "Hello, world" := by
  decide

/-- C8 counterexample: cleanText is not idempotent. On the input of two
quotes followed by a letter, one application leaves a single leading quote
(the doubled-quote scan starts after the leading-quote removal), and a
second application then removes it. -/
theorem cleanText_not_idempotent :
    cleanText (cleanText "\"\"a") ≠ cleanText "\"\"a" := by
  decide

/-- C8 amended: cleanText is idempotent on every input whose cleaned form
contains no quote character; a second application then finds no leading,
doubled or trailing quote and trimming is idempotent. -/
theorem cleanText_idem_of_no_quote (s : String)
    (h : '"' ∉ (cleanText s).data) :
    cleanText (cleanText s) = cleanText s := by
  have h1 : stripLeadingQuote (cleanText s) = cleanText s :=
    stripLeadingQuote_eq_self _ h
  have h2 : removeDoubledQuotes (cleanText s) = cleanText s :=
    removeDoubledQuotes_eq_self _ h
  have h3 : stripTrailingQuote (cleanText s) = cleanText s :=
    stripTrailingQuote_eq_self _ h
  calc cleanText (cleanText s)
      = jsTrim (cleanText s) := by
        unfold cleanText at h1 h2 h3 ⊢
        rw [h1, h2, h3]
    _ = cleanText s := jsTrim_idem _

/-- Witness for the amended C8 at a concrete quote-free input. -/
theorem cleanText_idem_of_no_quote_witness :
    ('"' ∉ (cleanText "hello").data) ∧
    cleanText (cleanText "hello") = cleanText "hello" :=
  ⟨by decide, cleanText_idem_of_no_quote "hello" (by decide)⟩

/-- Onmessage always appends the raw event data to the buffer. -/
theorem onmessage_accumulatedText (t : Nat) (st : ClientState) (ev : MessageEvent) :
    (onmessage t st ev).accumulatedText = st.accumulatedText ++ ev.data := by
  by_cases h : st.accumulatedText = "" <;> simp [onmessage, h]

/-- Onmessage leaves the elapsed-time metric unchanged once the buffer is
non-empty. -/
theorem onmessage_elapsedTime_of_ne (t : Nat) (st : ClientState) (ev : MessageEvent)
    (h : st.accumulatedText ≠ "") :
    (onmessage t st ev).elapsedTime = st.elapsedTime := by
  simp [onmessage, h]

/-- Folding the onmessage handler appends the joined event data to the
buffer. -/
theorem clientFold_accumulatedText (t : Nat) (events : List MessageEvent) :
    ∀ st : ClientState,
      (events.foldl (onmessage t) st).accumulatedText =
        st.accumulatedText ++ String.join (events.map MessageEvent.data) := by
  induction events with
  | nil => intro st; simp only [List.foldl_nil, List.map_nil]; rw [String.join, List.foldl_nil, String.append_empty]
  | cons ev rest ih =>
    intro st
    rw [List.foldl_cons, List.map_cons, ih, onmessage_accumulatedText, join_cons,
      String.append_assoc]

/-- Folding the onmessage handler never touches a recorded elapsed time once
the buffer is non-empty. -/
theorem clientFold_elapsedTime (t : Nat) (events : List MessageEvent) :
    ∀ st : ClientState, st.accumulatedText ≠ "" →
      (events.foldl (onmessage t) st).elapsedTime = st.elapsedTime := by
  induction events with
  | nil => intro st _; rfl
  | cons ev rest ih =>
    intro st h
    rw [List.foldl_cons]
    have hne : (onmessage t st ev).accumulatedText ≠ "" := by
      rw [onmessage_accumulatedText]
      exact append_ne_empty_left _ _ h
    rw [ih _ hne, onmessage_elapsedTime_of_ne t st ev h]

/-- C3 counterexample: after one event carrying the frame payload for the
fragment "a", the Accumulated Text Buffer holds the raw payload, quotes
included, not the JSON-decoded concatenation the claim states. -/
theorem client_buffer_is_raw_not_decoded :
    specDecodedConcat [jsonStringify "a"] = some "a" ∧
    (clientRun 0 [MessageEvent.mk (jsonStringify "a") 0]).accumulatedText =
      jsonStringify "a" ∧
    some ((clientRun 0 [MessageEvent.mk (jsonStringify "a") 0]).accumulatedText) ≠
      specDecodedConcat [jsonStringify "a"] := by
  refine ⟨by decide, by decide, by decide⟩

/-- C3 amended: the Accumulated Text Buffer after N events equals the raw
concatenation of the first N frames' payloads — event data is appended
as received, with no JSON decoding. -/
theorem client_buffer_raw_concat (timeStart : Nat) (events : List MessageEvent) :
    (clientRun timeStart events).accumulatedText =
      String.join (events.map MessageEvent.data) := by
  rw [clientRun, clientFold_accumulatedText]
  rfl

/-- C7: on a stream of non-empty frame payloads, the elapsed-time metric is
recorded exactly at the first received frame — the one arriving while the
buffer is still empty — with value the first frame's arrival time minus the
subscribe time, and is never recorded on a zero-frame stream. -/
theorem elapsedTime_first_frame (timeStart : Nat) (events : List MessageEvent)
    (h : ∀ ev ∈ events, ev.data ≠ "") :
    (clientRun timeStart events).elapsedTime =
      events.head?.map fun ev => ev.time - timeStart := by
  cases events with
  | nil => rfl
  | cons ev rest =>
    have hd : ev.data ≠ "" := h ev (List.mem_cons_self ev rest)
    rw [clientRun, List.foldl_cons]
    have hne : (onmessage timeStart initClientState ev).accumulatedText ≠ "" := by
      rw [onmessage_accumulatedText]
      show initClientState.accumulatedText ++ ev.data ≠ ""
      rw [show initClientState.accumulatedText = "" from rfl, String.empty_append]
      exact hd
    rw [clientFold_elapsedTime timeStart rest _ hne]
    simp [onmessage, initClientState, displayElapsedTime]

/-- Witness for C7 at one concrete frame arriving at time 42 after a
subscribe at time 10. -/
theorem elapsedTime_first_frame_witness :
    (∀ ev ∈ [MessageEvent.mk "\"Hi\"" 42], ev.data ≠ "") ∧
    (clientRun 10 [MessageEvent.mk "\"Hi\"" 42]).elapsedTime = some 32 :=
  ⟨by decide, by
    have := elapsedTime_first_frame 10 [MessageEvent.mk "\"Hi\"" 42] (by decide)
    simpa using this⟩

/-- C9: the reference single-shot endpoint answers every producer failure
with the fixed plain-text diagnostic body, and success and failure responses
carry the identical status 200 — the status code never distinguishes
them. -/
theorem normal_error_body_and_uniform_status :
    (normalHandler InvokeOutcome.error).body =
      "An error occurred while generating the summary." ∧
    ∀ o : InvokeOutcome, (normalHandler o).status = 200 := by
  refine ⟨rfl, ?_⟩
  intro o
  cases o with
  | ok response => rfl
  | error => rfl

/-- C10: when the single-shot response succeeds without a content field, the
reference endpoint answers with the fixed fallback body. -/
theorem normal_no_content_fallback :
    normalHandler (InvokeOutcome.ok (InvokeResponse.mk none)) =
      HttpResponse.mk 200 "No answer was generated." := rfl

end LlmStream
